import Mathlib

/-!
Verification of the invoice totals engine of professional-invoice-manager.

The computational core is `Service.totals` (src/archive/backup/main.py) and its
twin `BusinessService.calculate_totals` (src/archive/backup/main_refactored.py):
a single pass over the invoice line items that sums `qty * unit_price_cents`
into a running net total, groups the line nets into per-VAT-rate buckets held
in an insertion-ordered dict, then computes each bucket's VAT amount as
`int(round(base * rate / 100))` and sums those into the VAT total.

Line items carry integer minor-unit amounts, so the embedding uses `Int`
throughout (Python integers are unbounded).  Python's `round` applied to the
quotient rounds to the nearest integer with ties going to the even neighbour;
`roundDiv100` below reproduces that rule on the exact quotient.
-/

/-- A line item as produced by `Repo.list_items`: the `qty`, `unit_price_cents`
and `vat_rate` columns of an `invoice_item` row (keys `"qty"`, `"unit"`,
`"vat"` in the Python dict). -/
structure LineItem where
  qty : Int
  unit : Int
  vat : Int
deriving DecidableEq, Repr

/-- The dictionary returned by `Service.totals`: keys `"net"`, `"vat"`,
`"gross"` and `"rates"`, the last being the per-rate breakdown as a list of
(rate, net base, vat amount) triples in dict insertion order. -/
structure Totals where
  net : Int
  vat : Int
  gross : Int
  rates : List (Int × Int × Int)
deriving DecidableEq, Repr

/-- `int(round(n / 100))` for a Python integer `n`: the exact quotient
`n / 100` rounded to the nearest integer, ties to the even neighbour
(Python 3 `round` semantics on the value of the quotient). -/
def roundDiv100 (n : Int) : Int :=
  let q := Int.fdiv n 100
  let r := n - 100 * q
  if r < 50 then q
  else if 50 < r then q + 1
  else if q % 2 = 0 then q else q + 1

/-- The spec's reference rounding `round_half_up(n / 100)`: nearest integer,
ties rounded upward. -/
def roundHalfUpDiv100 (n : Int) : Int :=
  let q := Int.fdiv n 100
  let r := n - 100 * q
  if r < 50 then q else q + 1

/-- `per_rate.setdefault(rate, {"base":0,"vat":0})["base"] += v` on an
insertion-ordered association list from rate to accumulated net base: add `v`
to the existing entry for `rate`, or append a fresh entry at the end. -/
def addToRate : List (Int × Int) → Int → Int → List (Int × Int)
  | [], r, v => [(r, v)]
  | (r0, b) :: rest, r, v =>
      if r0 = r then (r0, b + v) :: rest else (r0, b) :: addToRate rest r v

/-- The first loop of `Service.totals`, started from an arbitrary accumulator:
`net += qty*unit` and `per_rate[...]["base"] += qty*unit` for each line. -/
def totalsLoop (acc : Int × List (Int × Int)) (items : List LineItem) :
    Int × List (Int × Int) :=
  items.foldl
    (fun a it => (a.1 + it.qty * it.unit, addToRate a.2 it.vat (it.qty * it.unit)))
    acc

/-- `Service.totals` (main.py lines 168-181), identically
`BusinessService.calculate_totals` (main_refactored.py lines 369-394):
one pass accumulating `net` and the per-rate bases, then per bucket
`v = int(round(base*rate/100))`, `vat_total += v`, and finally
`{"net":net, "vat":vat_total, "gross":net+vat_total, "rates":per_rate}`. -/
def totals (items : List LineItem) : Totals :=
  let acc := totalsLoop (0, []) items
  let buckets := acc.2.map (fun p => (p.1, p.2, roundDiv100 (p.2 * p.1)))
  let vatTotal := (buckets.map (fun b => b.2.2)).foldl (· + ·) 0
  { net := acc.1, vat := vatTotal, gross := acc.1 + vatTotal, rates := buckets }

/-- Lookup of a rate's accumulated base in the association list (Python dict
key lookup). -/
def lookupRate : List (Int × Int) → Int → Option Int
  | [], _ => none
  | (r0, b) :: rest, r => if r0 = r then some b else lookupRate rest r

/-- The rate keys of the per-rate dict, in insertion order. -/
def keysOf (m : List (Int × Int)) : List Int := m.map Prod.fst

/-- Net base accumulated for rate `r` over a list of items: the sum of
`qty * unit` over the items whose `vat` equals `r`. -/
def rateBase (items : List LineItem) (r : Int) : Int :=
  ((items.filter (fun i => i.vat == r)).map (fun i => i.qty * i.unit)).sum

/-- The per-rate bucket of the computed totals for rate `r`, as the partial
function rate to (net base, vat amount). -/
def bucketOf (t : Totals) (r : Int) : Option (Int × Int) :=
  (t.rates.find? (fun b => b.1 == r)).map (fun b => (b.2.1, b.2.2))

/-- The defensive variant of the calculator described (but not implemented) by
the spec: reject any line item with negative quantity, unit price or tax rate
with an `InvalidLineItem` error, otherwise return the computed totals. -/
def compute_totals_defensive_spec (items : List LineItem) : Except String Totals :=
  if items.all
      (fun i => decide (0 ≤ i.qty) && decide (0 ≤ i.unit) && decide (0 ≤ i.vat)) then
    Except.ok (totals items)
  else
    Except.error "InvalidLineItem"

/-- `sorted_rates = sorted(vat_breakdown.keys())` in
`InvoiceDetailWidget.update_vat_summary` (main_with_management.py line 1070):
the rate keys sorted ascending before display.  Python's stable `sorted` is
modelled by insertion sort; rate keys are distinct, so any correct sort agrees. -/
def sortedRatesForDisplay (t : Totals) : List Int :=
  List.insertionSort (· ≤ ·) (t.rates.map (fun b => b.1))

/-- A row of the `product` table: id, sku, name, unit_price_cents, vat_rate. -/
structure Product where
  id : Int
  sku : String
  name : String
  unit_price_cents : Int
  vat_rate : Int
deriving DecidableEq, Repr

/-- A row of the `invoice_item` table: id, invoice_id, product_id, qty, and
the unit_price_cents and vat_rate stored on the row itself. -/
structure InvoiceItem where
  id : Int
  invoice_id : Int
  product_id : Int
  qty : Int
  unit_price_cents : Int
  vat_rate : Int
deriving DecidableEq, Repr

/-- The SQLite state the repository operates on, restricted to the two tables
the claims touch; rows are kept in rowid order and `next_item_id` models the
autoincrementing invoice_item primary key. -/
structure DB where
  products : List Product
  invoice_items : List InvoiceItem
  next_item_id : Int
deriving DecidableEq, Repr

/-- `SELECT unit_price_cents,vat_rate FROM product WHERE id=?` followed by
`fetchone()`: the first product row with the given id, if any. -/
def findProduct (db : DB) (pid : Int) : Option Product :=
  db.products.find? (fun p => p.id == pid)

/-- `Repo.add_item` (main.py lines 148-154), identically `Repository.add_item`
(main_refactored.py lines 338-348): look the product up, raise
"product not found" if missing, otherwise insert an invoice_item row with the
product's current unit_price_cents and vat_rate copied into it. -/
def add_item (db : DB) (inv_id product_id qty : Int) : Except String DB :=
  match findProduct db product_id with
  | none => Except.error "product not found"
  | some p =>
      Except.ok
        { db with
          invoice_items := db.invoice_items ++
            [{ id := db.next_item_id, invoice_id := inv_id, product_id := product_id,
               qty := qty, unit_price_cents := p.unit_price_cents,
               vat_rate := p.vat_rate }],
          next_item_id := db.next_item_id + 1 }

/-- `Repository.update_product` (main_refactored.py lines 299-304): set sku,
name, unit_price_cents and vat_rate on the product row with the given id. -/
def update_product (db : DB) (pid : Int) (sku nm : String) (price vat : Int) : DB :=
  { db with
    products := db.products.map (fun p =>
      if p.id == pid then
        { p with sku := sku, name := nm, unit_price_cents := price, vat_rate := vat }
      else p) }

/-- `Repo.list_items` (main.py lines 141-147): invoice_item joined with
product on product_id (the join contributes only sku and name), restricted to
one invoice and ordered by item id; qty, unit_price_cents and vat_rate come
from the invoice_item row. -/
def list_items (db : DB) (inv_id : Int) : List LineItem :=
  (db.invoice_items.filter
      (fun ii => ii.invoice_id == inv_id && (findProduct db ii.product_id).isSome)).map
    (fun ii => { qty := ii.qty, unit := ii.unit_price_cents, vat := ii.vat_rate })

/-- Concrete one-product database used to witness the repository claims. -/
def dbBefore : DB :=
  { products := [{ id := 1, sku := "A", name := "Widget",
                   unit_price_cents := 100, vat_rate := 27 }],
    invoice_items := [], next_item_id := 1 }

/-- `dbBefore` after adding one line of product 1 (qty 2) to invoice 10. -/
def dbAfter : DB :=
  { products := [{ id := 1, sku := "A", name := "Widget",
                   unit_price_cents := 100, vat_rate := 27 }],
    invoice_items := [{ id := 1, invoice_id := 10, product_id := 1, qty := 2,
                        unit_price_cents := 100, vat_rate := 27 }],
    next_item_id := 2 }

/-- The per-rate accumulation on its own, started from an arbitrary dict. -/
def buildFrom (m : List (Int × Int)) (items : List LineItem) : List (Int × Int) :=
  items.foldl (fun m it => addToRate m it.vat (it.qty * it.unit)) m

theorem foldl_add_eq (l : List Int) : ∀ a : Int, l.foldl (· + ·) a = a + l.sum := by
  induction l with
  | nil => simp
  | cons x xs ih => intro a; simp [List.foldl_cons, ih, add_assoc]

theorem totalsLoop_fst (items : List LineItem) :
    ∀ acc : Int × List (Int × Int),
      (totalsLoop acc items).1 = acc.1 + (items.map (fun i => i.qty * i.unit)).sum := by
  induction items with
  | nil => intro acc; simp [totalsLoop]
  | cons it rest ih =>
      intro acc
      simp only [totalsLoop, List.foldl_cons] at *
      rw [ih]
      simp [add_assoc]

theorem totalsLoop_snd (items : List LineItem) :
    ∀ (n : Int) (m : List (Int × Int)),
      (totalsLoop (n, m) items).2 = buildFrom m items := by
  induction items with
  | nil => intro n m; simp [totalsLoop, buildFrom]
  | cons it rest ih =>
      intro n m
      simp only [totalsLoop, buildFrom, List.foldl_cons] at *
      exact ih _ _

theorem lookup_addToRate (m : List (Int × Int)) (r0 v r : Int) :
    lookupRate (addToRate m r0 v) r =
      if r = r0 then some ((lookupRate m r).getD 0 + v) else lookupRate m r := by
  induction m with
  | nil =>
      by_cases h : r = r0
      · subst h; simp [addToRate, lookupRate]
      · have h2 : ¬ r0 = r := fun hh => h hh.symm
        simp [addToRate, lookupRate, h, h2]
  | cons p rest ih =>
      obtain ⟨r1, b⟩ := p
      by_cases h1 : r1 = r0
      · subst h1
        by_cases h2 : r = r1
        · subst h2; simp [addToRate, lookupRate]
        · have h3 : ¬ r1 = r := fun hh => h2 hh.symm
          simp [addToRate, lookupRate, h2, h3]
      · by_cases h2 : r1 = r
        · subst h2
          have hr0 : ¬ r1 = r0 := h1
          have hr0s : ¬ r1 = r0 := h1
          simp [addToRate, lookupRate, h1, hr0, fun hh : r1 = r0 => h1 hh]
        · simp [addToRate, lookupRate, h1, h2, ih]

theorem rateBase_cons (it : LineItem) (rest : List LineItem) (r : Int) :
    rateBase (it :: rest) r =
      (if it.vat = r then it.qty * it.unit else 0) + rateBase rest r := by
  by_cases h : it.vat = r <;> simp [rateBase, List.filter_cons, h]

theorem rateBase_eq_zero (items : List LineItem) (r : Int)
    (h : r ∉ items.map (fun i => i.vat)) : rateBase items r = 0 := by
  induction items with
  | nil => rfl
  | cons it rest ih =>
      simp only [List.map_cons, List.mem_cons] at h
      push_neg at h
      rw [rateBase_cons, if_neg (fun hh => h.1 hh.symm), ih h.2, add_zero]

theorem lookup_buildFrom (items : List LineItem) :
    ∀ (m : List (Int × Int)) (r : Int),
      lookupRate (buildFrom m items) r =
        if r ∈ items.map (fun i => i.vat)
        then some ((lookupRate m r).getD 0 + rateBase items r)
        else lookupRate m r := by
  induction items with
  | nil => intro m r; simp [buildFrom, rateBase]
  | cons it rest ih =>
      intro m r
      have hstep : buildFrom m (it :: rest) =
          buildFrom (addToRate m it.vat (it.qty * it.unit)) rest := by
        simp [buildFrom]
      rw [hstep, ih, lookup_addToRate, rateBase_cons]
      simp only [List.map_cons, List.mem_cons]
      by_cases hv : r = it.vat
      · rw [if_pos hv, if_pos hv.symm, if_pos (Or.inl hv)]
        by_cases hr : r ∈ rest.map (fun i => i.vat)
        · rw [if_pos hr]
          simp [add_assoc]
        · rw [if_neg hr, rateBase_eq_zero rest r hr, add_zero]
      · have hv2 : ¬ it.vat = r := fun hh => hv hh.symm
        rw [if_neg hv, if_neg hv2, zero_add]
        by_cases hr : r ∈ rest.map (fun i => i.vat)
        · rw [if_pos hr, if_pos (Or.inr hr)]
        · rw [if_neg hr, if_neg (fun hh => hh.elim hv hr)]

theorem lookup_build (items : List LineItem) (r : Int) :
    lookupRate (buildFrom [] items) r =
      if r ∈ items.map (fun i => i.vat) then some (rateBase items r) else none := by
  have h := lookup_buildFrom items [] r
  simpa [lookupRate] using h

theorem keys_addToRate (m : List (Int × Int)) (r v : Int) :
    keysOf (addToRate m r v) =
      if r ∈ keysOf m then keysOf m else keysOf m ++ [r] := by
  induction m with
  | nil => simp [addToRate, keysOf]
  | cons p rest ih =>
      obtain ⟨r1, b⟩ := p
      by_cases h : r1 = r
      · subst h; simp [addToRate, keysOf]
      · have h2 : ¬ r = r1 := fun hh => h hh.symm
        simp only [addToRate, if_neg h, keysOf, List.map_cons] at ih ⊢
        rw [ih]
        by_cases hm : r ∈ List.map Prod.fst rest
        · have hc : r ∈ r1 :: List.map Prod.fst rest := List.mem_cons_of_mem _ hm
          rw [if_pos hm, if_pos hc]
        · have hc : r ∉ r1 :: List.map Prod.fst rest := by
            simp [List.mem_cons, h2, hm]
          rw [if_neg hm, if_neg hc, List.cons_append]

theorem nodup_keys_addToRate (m : List (Int × Int)) (r v : Int)
    (h : (keysOf m).Nodup) : (keysOf (addToRate m r v)).Nodup := by
  rw [keys_addToRate]
  by_cases hm : r ∈ keysOf m
  · simpa [hm] using h
  · simp [hm, List.nodup_append, h]

theorem nodup_keys_buildFrom (items : List LineItem) :
    ∀ m : List (Int × Int),
      (keysOf m).Nodup → (keysOf (buildFrom m items)).Nodup := by
  induction items with
  | nil => intro m h; simpa [buildFrom] using h
  | cons it rest ih =>
      intro m h
      have hstep : buildFrom m (it :: rest) =
          buildFrom (addToRate m it.vat (it.qty * it.unit)) rest := by
        simp [buildFrom]
      rw [hstep]
      exact ih _ (nodup_keys_addToRate m it.vat _ h)

theorem mem_assoc_iff (m : List (Int × Int)) (hnd : (keysOf m).Nodup) (r b : Int) :
    (r, b) ∈ m ↔ lookupRate m r = some b := by
  induction m with
  | nil => simp [lookupRate]
  | cons p rest ih =>
      obtain ⟨r1, b1⟩ := p
      simp only [keysOf, List.map_cons, List.nodup_cons] at hnd
      by_cases h : r1 = r
      · subst h
        have hlook : lookupRate ((r1, b1) :: rest) r1 = some b1 := by
          simp [lookupRate]
        rw [hlook]
        simp only [List.mem_cons, Prod.mk.injEq, true_and, Option.some.injEq]
        constructor
        · rintro (rfl | hmem)
          · rfl
          · exact absurd (List.mem_map_of_mem Prod.fst hmem) hnd.1
        · intro hh; exact Or.inl hh.symm
      · have h2 : ¬ r1 = r := h
        simp only [lookupRate, if_neg h2, List.mem_cons, Prod.mk.injEq]
        rw [← ih hnd.2]
        constructor
        · rintro (⟨hr, _⟩ | hmem)
          · exact absurd hr.symm h2
          · exact hmem
        · exact Or.inr

theorem assoc_perm {a1 a2 : List (Int × Int)}
    (h1 : (keysOf a1).Nodup) (h2 : (keysOf a2).Nodup)
    (h : ∀ r, lookupRate a1 r = lookupRate a2 r) : a1.Perm a2 := by
  apply List.perm_of_nodup_nodup_toFinset_eq
  · exact List.Nodup.of_map Prod.fst h1
  · exact List.Nodup.of_map Prod.fst h2
  · ext p
    obtain ⟨r, b⟩ := p
    simp only [List.mem_toFinset]
    rw [mem_assoc_iff a1 h1, mem_assoc_iff a2 h2, h r]

theorem find_map_lookup (m : List (Int × Int)) (r : Int) :
    ((m.map (fun p => (p.1, p.2, roundDiv100 (p.2 * p.1)))).find?
        (fun b => b.1 == r)).map (fun b => (b.2.1, b.2.2))
      = (lookupRate m r).map (fun b => (b, roundDiv100 (b * r))) := by
  induction m with
  | nil => rfl
  | cons p rest ih =>
      obtain ⟨r1, b1⟩ := p
      simp only [List.map_cons]
      by_cases h : r1 = r
      · subst h
        rw [List.find?_cons_of_pos _ (by simp)]
        simp [lookupRate]
      · rw [List.find?_cons_of_neg _ (by simp [h])]
        have hlook : lookupRate ((r1, b1) :: rest) r = lookupRate rest r := by
          simp [lookupRate, h]
        rw [hlook, ih]

theorem totals_net (items : List LineItem) :
    (totals items).net = (items.map (fun i => i.qty * i.unit)).sum := by
  simp [totals, totalsLoop_fst]

theorem totals_rates (items : List LineItem) :
    (totals items).rates =
      (buildFrom [] items).map (fun p => (p.1, p.2, roundDiv100 (p.2 * p.1))) := by
  simp [totals, totalsLoop_snd]

theorem totals_vat (items : List LineItem) :
    (totals items).vat = ((totals items).rates.map (fun b => b.2.2)).sum := by
  simp [totals, foldl_add_eq]

theorem totals_gross (items : List LineItem) :
    (totals items).gross = (totals items).net + (totals items).vat := by
  simp [totals]

/-- C1 fails as stated: for the single line item qty 1, unit price 50, rate 1,
the code's bucket for rate 1 has net base 50 and tax amount 0 (Python's
`round(0.5)` is 0, ties to even), while `round_half_up(50 * 1 / 100) = 1`. -/
theorem C1_counterexample :
    bucketOf (totals [⟨1, 50, 1⟩]) 1 = some (50, 0) ∧
    roundHalfUpDiv100 (50 * 1) = 1 ∧
    bucketOf (totals [⟨1, 50, 1⟩]) 1 ≠ some (50, roundHalfUpDiv100 (50 * 1)) := by
  decide

/-- C1 amended: every rate bucket produced by the totals computation with net
base B and rate R has tax amount equal to B * R / 100 rounded to the nearest
integer with ties to the even neighbour (Python's default `round`), not ties
upward. -/
theorem C1_bucket_tax_is_round_half_even (items : List LineItem)
    (b : Int × Int × Int) (hb : b ∈ (totals items).rates) :
    b.2.2 = roundDiv100 (b.2.1 * b.1) := by
  rw [totals_rates] at hb
  simp only [List.mem_map] at hb
  obtain ⟨p, _, rfl⟩ := hb
  rfl

theorem C1_bucket_tax_witness :
    (5, 139800, 6990) ∈ (totals [⟨2, 69900, 5⟩]).rates ∧
    (6990 : Int) = roundDiv100 (139800 * 5) :=
  ⟨by decide, C1_bucket_tax_is_round_half_even [⟨2, 69900, 5⟩] (5, 139800, 6990) (by decide)⟩

/-- C2 fails as stated: the sequence of rate keys produced by the totals
computation is in first-insertion order, not sorted ascending: for items with
rates 27 then 5 it is [27, 5]. -/
theorem C2_counterexample :
    ((totals [⟨1, 100, 27⟩, ⟨1, 100, 5⟩]).rates.map (fun b => b.1)) = [27, 5] ∧
    ¬ List.Sorted (· ≤ ·) ((totals [⟨1, 100, 27⟩, ⟨1, 100, 5⟩]).rates.map (fun b => b.1)) := by
  constructor
  · decide
  · intro h
    have h27 : ((totals [⟨1, 100, 27⟩, ⟨1, 100, 5⟩]).rates.map (fun b => b.1)) = [27, 5] := by
      decide
    rw [h27] at h
    have := (List.sorted_cons.mp h).1 5 (by simp)
    omega

/-- C2 amended: the totals computation emits rate buckets in first-insertion
order; it is the rendering step that sorts the rate keys, so the displayed
sequence is an ascending permutation of the produced rate keys. -/
theorem C2_display_order_sorted (items : List LineItem) :
    List.Sorted (· ≤ ·) (sortedRatesForDisplay (totals items)) ∧
    (sortedRatesForDisplay (totals items)).Perm
      ((totals items).rates.map (fun b => b.1)) :=
  ⟨List.sorted_insertionSort _ _, List.perm_insertionSort _ _⟩

/-- C3: the total tax equals the sum of the already-rounded per-bucket tax
amounts of the rate breakdown; no rounding is applied to the overall total. -/
theorem C3_tax_is_sum_of_bucket_taxes (items : List LineItem) :
    (totals items).vat = ((totals items).rates.map (fun b => b.2.2)).sum := by
  simp [totals, foldl_add_eq]

/-- C4: the net total is the exact integer sum of quantity times unit price
over all line items. -/
theorem C4_net_is_exact_sum (items : List LineItem) :
    (totals items).net = (items.map (fun i => i.qty * i.unit)).sum := by
  simp [totals, totalsLoop_fst]

/-- C5: for every non-empty list of line items, gross equals net plus tax
exactly, as integers. -/
theorem C5_gross_eq_net_plus_tax (items : List LineItem) (_h : items ≠ []) :
    (totals items).gross = (totals items).net + (totals items).vat := by
  simp [totals]

theorem C5_gross_witness :
    [(⟨1, 101, 27⟩ : LineItem)] ≠ [] ∧
    (totals [⟨1, 101, 27⟩]).gross = (totals [⟨1, 101, 27⟩]).net + (totals [⟨1, 101, 27⟩]).vat :=
  ⟨by decide, C5_gross_eq_net_plus_tax [⟨1, 101, 27⟩] (by decide)⟩

/-- C6: the empty item list yields net = tax = gross = 0 and an empty rate
breakdown. -/
theorem C6_empty_totals :
    (totals []).net = 0 ∧ (totals []).vat = 0 ∧ (totals []).gross = 0 ∧
    (totals []).rates = [] := by
  decide

/-- C7: on the whole claimed domain (all quantities, unit prices and tax rates
non-negative, with no upper bound on the rate) even the spec's defensive
validation accepts the input and the computation returns its result; no error
branch is reachable. -/
theorem C7_no_rejection_on_valid_domain (items : List LineItem)
    (h : ∀ i ∈ items, 0 ≤ i.qty ∧ 0 ≤ i.unit ∧ 0 ≤ i.vat) :
    compute_totals_defensive_spec items = Except.ok (totals items) := by
  unfold compute_totals_defensive_spec
  rw [if_pos]
  rw [List.all_eq_true]
  intro i hi
  have := h i hi
  simp [this.1, this.2.1, this.2.2]

theorem C7_witness :
    (∀ i ∈ [(⟨1, 100, 1000000⟩ : LineItem)], 0 ≤ i.qty ∧ 0 ≤ i.unit ∧ 0 ≤ i.vat) ∧
    compute_totals_defensive_spec [⟨1, 100, 1000000⟩] =
      Except.ok (totals [⟨1, 100, 1000000⟩]) :=
  ⟨by decide, C7_no_rejection_on_valid_domain [⟨1, 100, 1000000⟩] (by decide)⟩

/-- C10: the implemented totals computation performs no input validation: on a
list containing a negative quantity, unit price or tax rate — where the
defensive variant would reject with InvalidLineItem — it still returns the
algebraically computed result (exact net sum, per-bucket-rounded tax sum,
gross = net + tax). -/
theorem C10_no_validation (items : List LineItem)
    (h : ∃ i ∈ items, i.qty < 0 ∨ i.unit < 0 ∨ i.vat < 0) :
    compute_totals_defensive_spec items = Except.error "InvalidLineItem" ∧
    (totals items).net = (items.map (fun i => i.qty * i.unit)).sum ∧
    (totals items).vat = ((totals items).rates.map (fun b => b.2.2)).sum ∧
    (totals items).gross = (totals items).net + (totals items).vat := by
  refine ⟨?_, by simp [totals, totalsLoop_fst], by simp [totals, foldl_add_eq], by simp [totals]⟩
  unfold compute_totals_defensive_spec
  rw [if_neg]
  rw [List.all_eq_true]
  intro hall
  obtain ⟨i, hi, hneg⟩ := h
  have := hall i hi
  simp only [Bool.and_eq_true, decide_eq_true_eq] at this
  rcases hneg with hq | hu | hv
  · omega
  · omega
  · omega

theorem C10_witness :
    (∃ i ∈ [(⟨-1, 50, 27⟩ : LineItem)], i.qty < 0 ∨ i.unit < 0 ∨ i.vat < 0) ∧
    compute_totals_defensive_spec [⟨-1, 50, 27⟩] = Except.error "InvalidLineItem" :=
  ⟨⟨⟨-1, 50, 27⟩, by decide, by decide⟩,
    (C10_no_validation [⟨-1, 50, 27⟩] ⟨⟨-1, 50, 27⟩, by decide, by decide⟩).1⟩

theorem bucketOf_totals (items : List LineItem) (r : Int) :
    bucketOf (totals items) r =
      (lookupRate (buildFrom [] items) r).map (fun b => (b, roundDiv100 (b * r))) := by
  unfold bucketOf
  rw [totals_rates, find_map_lookup]

/-- C9: the totals computation is invariant under reordering of the line items:
permuting the input leaves net, tax and gross unchanged, and the rate
breakdown, viewed as a function from rate to (net base, tax amount), is the
same. -/
theorem C9_totals_perm_invariant (l1 l2 : List LineItem) (h : l1.Perm l2) :
    (totals l1).net = (totals l2).net ∧
    (totals l1).vat = (totals l2).vat ∧
    (totals l1).gross = (totals l2).gross ∧
    ∀ r : Int, bucketOf (totals l1) r = bucketOf (totals l2) r := by
  have hlook : ∀ r : Int, lookupRate (buildFrom [] l1) r = lookupRate (buildFrom [] l2) r := by
    intro r
    rw [lookup_build, lookup_build]
    have hmem : (r ∈ l1.map (fun i => i.vat)) ↔ (r ∈ l2.map (fun i => i.vat)) :=
      (h.map (fun i => i.vat)).mem_iff
    have hbase : rateBase l1 r = rateBase l2 r := by
      unfold rateBase
      exact ((h.filter (fun i => i.vat == r)).map (fun i => i.qty * i.unit)).sum_eq
    by_cases hm : r ∈ l1.map (fun i => i.vat)
    · rw [if_pos hm, if_pos (hmem.mp hm), hbase]
    · rw [if_neg hm, if_neg (fun hh => hm (hmem.mpr hh))]
  have hnet : (totals l1).net = (totals l2).net := by
    rw [totals_net, totals_net]
    exact (h.map (fun i => i.qty * i.unit)).sum_eq
  have hperm : (buildFrom [] l1).Perm (buildFrom [] l2) :=
    assoc_perm (nodup_keys_buildFrom l1 [] (by simp [keysOf]))
      (nodup_keys_buildFrom l2 [] (by simp [keysOf])) hlook
  have hvat : (totals l1).vat = (totals l2).vat := by
    rw [totals_vat, totals_vat, totals_rates, totals_rates, List.map_map, List.map_map]
    exact (hperm.map _).sum_eq
  refine ⟨hnet, hvat, ?_, ?_⟩
  · rw [totals_gross, totals_gross, hnet, hvat]
  · intro r
    rw [bucketOf_totals, bucketOf_totals, hlook r]

theorem C9_witness :
    (totals [⟨1, 100, 5⟩, ⟨2, 50, 27⟩]).net = (totals [⟨2, 50, 27⟩, ⟨1, 100, 5⟩]).net ∧
    (totals [⟨1, 100, 5⟩, ⟨2, 50, 27⟩]).vat = (totals [⟨2, 50, 27⟩, ⟨1, 100, 5⟩]).vat ∧
    (totals [⟨1, 100, 5⟩, ⟨2, 50, 27⟩]).gross = (totals [⟨2, 50, 27⟩, ⟨1, 100, 5⟩]).gross ∧
    bucketOf (totals [⟨1, 100, 5⟩, ⟨2, 50, 27⟩]) 5 =
      bucketOf (totals [⟨2, 50, 27⟩, ⟨1, 100, 5⟩]) 5 :=
  have hp : ([⟨1, 100, 5⟩, ⟨2, 50, 27⟩] : List LineItem).Perm [⟨2, 50, 27⟩, ⟨1, 100, 5⟩] :=
    List.Perm.swap _ _ _
  have hall := C9_totals_perm_invariant _ _ hp
  ⟨hall.1, hall.2.1, hall.2.2.1, hall.2.2.2 5⟩

theorem findProduct_update_isSome (db : DB) (pid2 : Int) (sku nm : String)
    (price vat : Int) (pid : Int) :
    (findProduct (update_product db pid2 sku nm price vat) pid).isSome =
      (findProduct db pid).isSome := by
  unfold findProduct update_product
  rw [List.find?_map]
  have hpred : ((fun p => p.id == pid) ∘ fun p : Product =>
      if p.id == pid2 then
        { p with sku := sku, name := nm, unit_price_cents := price, vat_rate := vat }
      else p) = (fun p : Product => p.id == pid) := by
    funext p
    simp only [Function.comp]
    split <;> rfl
  rw [hpred]
  cases db.products.find? (fun p => p.id == pid) <;> rfl

theorem list_items_update (db : DB) (pid2 : Int) (sku nm : String)
    (price vat : Int) (inv : Int) :
    list_items (update_product db pid2 sku nm price vat) inv = list_items db inv := by
  unfold list_items
  have hitems : (update_product db pid2 sku nm price vat).invoice_items =
      db.invoice_items := rfl
  rw [hitems]
  have hfilter : ∀ ii ∈ db.invoice_items,
      (ii.invoice_id == inv &&
          (findProduct (update_product db pid2 sku nm price vat) ii.product_id).isSome) =
        (ii.invoice_id == inv && (findProduct db ii.product_id).isSome) := by
    intro ii _
    rw [findProduct_update_isSome]
  rw [List.filter_congr hfilter]

/-- C8: adding a line item copies the product's current unit price and VAT
rate into the invoice_item row, and a later catalog update of any product
leaves the stored invoice_item rows, the listed line items of every invoice,
and hence the computed totals, unchanged. -/
theorem C8_price_copied_update_immune (db : DB) (inv pid qty : Int) (db1 : DB)
    (h : add_item db inv pid qty = Except.ok db1) :
    (∃ p, findProduct db pid = some p ∧
        db1.invoice_items = db.invoice_items ++
          [{ id := db.next_item_id, invoice_id := inv, product_id := pid, qty := qty,
             unit_price_cents := p.unit_price_cents, vat_rate := p.vat_rate }]) ∧
    ∀ (pid2 : Int) (sku nm : String) (price vat inv2 : Int),
      (update_product db1 pid2 sku nm price vat).invoice_items = db1.invoice_items ∧
      list_items (update_product db1 pid2 sku nm price vat) inv2 = list_items db1 inv2 ∧
      totals (list_items (update_product db1 pid2 sku nm price vat) inv2) =
        totals (list_items db1 inv2) := by
  constructor
  · unfold add_item at h
    cases hfind : findProduct db pid with
    | none => rw [hfind] at h; simp at h
    | some p =>
        rw [hfind] at h
        simp only [Except.ok.injEq] at h
        exact ⟨p, rfl, by rw [← h]⟩
  · intro pid2 sku nm price vat inv2
    refine ⟨rfl, list_items_update db1 pid2 sku nm price vat inv2, ?_⟩
    rw [list_items_update]

theorem C8_witness :
    (∃ p, findProduct dbBefore 1 = some p ∧
        dbAfter.invoice_items = dbBefore.invoice_items ++
          [{ id := dbBefore.next_item_id, invoice_id := 10, product_id := 1, qty := 2,
             unit_price_cents := p.unit_price_cents, vat_rate := p.vat_rate }]) ∧
    list_items (update_product dbAfter 1 "B" "Cheap" 1 5) 10 = list_items dbAfter 10 ∧
    totals (list_items (update_product dbAfter 1 "B" "Cheap" 1 5) 10) =
      totals (list_items dbAfter 10) :=
  have hadd : add_item dbBefore 10 1 2 = Except.ok dbAfter := by rfl
  have hall := C8_price_copied_update_immune dbBefore 10 1 2 dbAfter hadd
  ⟨hall.1, (hall.2 1 "B" "Cheap" 1 5 10).2.1, (hall.2 1 "B" "Cheap" 1 5 10).2.2⟩

-- Basic sanity checks against the spec's concrete scenarios.
example : totals [⟨2, 69900, 5⟩] =
    { net := 139800, vat := 6990, gross := 146790, rates := [(5, 139800, 6990)] } := by
  decide

example : totals [⟨1, 39900, 18⟩, ⟨3, 10000, 18⟩] =
    { net := 69900, vat := 12582, gross := 82482, rates := [(18, 69900, 12582)] } := by
  decide

example : totals [⟨2, 100000, 27⟩, ⟨1, 50000, 18⟩, ⟨3, 200000, 27⟩, ⟨1, 75000, 5⟩] =
    { net := 925000, vat := 228750, gross := 1153750,
      rates := [(27, 800000, 216000), (18, 50000, 9000), (5, 75000, 3750)] } := by
  decide

example : totals [⟨1, 101, 27⟩] =
    { net := 101, vat := 27, gross := 128, rates := [(27, 101, 27)] } := by
  decide

example : totals [⟨0, 50000, 27⟩] =
    { net := 0, vat := 0, gross := 0, rates := [(27, 0, 0)] } := by
  decide
